import Mathlib

/-!
Verification of the mcphost-server orchestration core.

Shallow embedding of the Go sources:
  * `server/root.go`            — `runPrompt` (orchestration loop), globals.
  * `server` (unnamed part 0)   — HTTP handlers (`historyHandler`), env loading
    (`LoadServerEnv`, `NewServer`), `createMCPClients`, `mcpToolsToAnthropicTools`.

External collaborators (the LLM provider, the mcp-go stdio client) are modelled
as oracles: a provider is a list of per-round responses, a tool server is a
function from (tool name, arguments) to a result or an error.
-/

/-- Modelled from the spec: the repository's `pkg/history` package is not in
the sources; `ContentBlock` follows the spec's data model ("a tagged union
representing one atomic piece of turn content", variants `text`, `tool_use`,
`tool_result`) and the exact field usage in `server/root.go` (fields `Type`,
`Text`, `ID`, `Name`, `Input`, `ToolUseID`, `Content`). A raw result item
(Go `interface{}`) either is a map carrying a `text` field or is not. -/
inductive RawItem
  | withText (t : String)
  | noText
deriving DecidableEq, Repr

/-- Payload of a `tool_result` block's `Content` field: absent, the raw item
list returned by the tool, or (error case in `root.go`) a nested list of
`text` content blocks, kept here as their text strings. -/
inductive BlockPayload
  | empty
  | raw (items : List RawItem)
  | textBlocks (ts : List String)
deriving DecidableEq, Repr

/-- Tool-call arguments after the model returned them: a JSON object (string
fields suffice for the model), JSON null, or any non-object payload.
`root.go` marshals the arguments and unmarshals them into a
`map[string]interface{}`; that round trip fails exactly on non-null
non-object payloads. -/
inductive Args
  | obj (fields : List (String × String))
  | null
  | nonObj (raw : String)
deriving DecidableEq, Repr

/-- One content block of a history message (Go `history.ContentBlock`). -/
structure ContentBlock where
  type : String
  text : String := ""
  id : String := ""
  name : String := ""
  input : Option Args := none
  toolUseID : String := ""
  content : BlockPayload := .empty
deriving DecidableEq, Repr

/-- Modelled from the spec: Go `history.HistoryMessage` (a Turn): a role and
an ordered sequence of content blocks. -/
structure HistoryMessage where
  role : String
  content : List ContentBlock
deriving DecidableEq, Repr

/-- One tool call requested by the model (Go `llm.ToolCall` interface:
`GetID`, `GetName`, `GetArguments`). -/
structure ToolCall where
  id : String
  name : String
  args : Args
deriving DecidableEq, Repr

/-- One model response (Go `llm.Message` interface: `GetRole`, `GetContent`,
`GetToolCalls`, `GetUsage`). -/
structure Message where
  role : String
  content : String
  toolCalls : List ToolCall
  usageIn : Nat := 0
  usageOut : Nat := 0

/-- Behaviour oracle for one connected MCP tool server: maps a local tool
name and unmarshalled arguments to either a transport/execution error or a
`CallToolResult` whose `Content` is `none` (Go nil) or a list of raw items. -/
abbrev Behavior : Type := String → List (String × String) → Except String (Option (List RawItem))

/-- The registry of connected MCP clients (Go
`map[string]*mcpclient.StdioMCPClient`), as an association list. -/
abbrev Clients : Type := List (String × Behavior)

/-- Go `strings.Split(s, "__")` specialised to the fixed two-underscore
separator of `root.go`: leftmost, non-overlapping splitting. (Defined
directly so that it is structurally recursive and kernel-reducible.) -/
def goSplitUS : List Char → List Char → List String
  | '_' :: '_' :: rest, acc => String.mk acc :: goSplitUS rest []
  | c :: rest, acc => goSplitUS rest (acc ++ [c])
  | [], acc => [String.mk acc]

/-- Splitting a namespaced tool name at the fixed separator, as
`strings.Split(toolCall.GetName(), "__")` does in `root.go`. -/
def splitToolName (s : String) : List String :=
  goSplitUS s.data []

/-- The `json.Marshal` / `json.Unmarshal` round trip of the tool arguments
into a `map[string]interface{}` in `root.go`: fails on non-null non-object
payloads; JSON null unmarshals to the nil (empty) map without error. -/
def unmarshalMap : Args → Option (List (String × String))
  | .obj fields => some fields
  | .null => some []
  | .nonObj _ => none

/-- Outcome of processing one tool call in `runPrompt`'s dispatch loop. -/
inductive CallOutcome
  | malformed
  | unknownServer (server : String)
  | badArgs
  | errored (toolName errMsg : String)
  | okNil
  | okContent (items : List RawItem)
deriving DecidableEq, Repr

/-- Classification of one tool call, mirroring the guard sequence of
`runPrompt` (root.go lines 163-244): name split must have exactly two parts,
the server must be registered, the arguments must unmarshal, then the call is
forwarded to the owning connection with the local tool name. -/
def classifyCall (clients : Clients) (tc : ToolCall) : CallOutcome :=
  match splitToolName tc.name with
  | [serverName, toolName] =>
    match List.lookup serverName clients with
    | none => .unknownServer serverName
    | some beh =>
      match unmarshalMap tc.args with
      | none => .badArgs
      | some toolArgs =>
        match beh toolName toolArgs with
        | .error e => .errored toolName e
        | .ok none => .okNil
        | .ok (some items) => .okContent items
  | _ => .malformed

/-- The `tool_use` block appended to the assistant content for every tool
call, before any validation (root.go lines 147-152). -/
def toolUseBlock (tc : ToolCall) : ContentBlock :=
  { type := "tool_use", id := tc.id, name := tc.name, input := some tc.args }

/-- The error message `fmt.Sprintf("Error calling tool %s: %v", ...)`. -/
def callErrMsg (toolName errMsg : String) : String :=
  "Error calling tool " ++ toolName ++ ": " ++ errMsg

/-- The synthetic `tool_result` block built when `CallTool` returns an error
(root.go lines 195-213): its `Content` is a nested list holding one `text`
block with the error message; it is appended to `messageContent`. -/
def errorResultBlock (id toolName errMsg : String) : ContentBlock :=
  { type := "tool_result", toolUseID := id,
    content := .textBlocks [callErrMsg toolName errMsg] }

/-- Whitespace characters trimmed by Go `strings.TrimSpace` (the ASCII ones
suffice for this development). -/
def isSpaceChar (c : Char) : Bool :=
  c = ' ' || c = '\t' || c = '\n' || c = '\r'

/-- Go `strings.TrimSpace`: strip leading and trailing whitespace. -/
def goTrimSpace (s : String) : String :=
  String.mk (((s.data.dropWhile isSpaceChar).reverse.dropWhile isSpaceChar).reverse)

/-- Best-effort text flattening of a raw tool result (root.go lines 227-238):
every item structurally carrying a `text` field contributes its text plus a
trailing space; the concatenation is trimmed. -/
def flattenText (items : List RawItem) : String :=
  goTrimSpace
    (items.foldl
      (fun acc it =>
        match it with
        | .withText t => acc ++ t ++ " "
        | .noText => acc)
      "")

/-- The `tool_result` block built from a successful call with non-nil
content (root.go lines 217-243); appended to `toolResults`. -/
def resultBlock (id : String) (items : List RawItem) : ContentBlock :=
  { type := "tool_result", toolUseID := id, content := .raw items,
    text := flattenText items }

/-- Contribution of one tool call to the round: blocks added to the assistant
content (`messageContent`), blocks added to the tool results (`toolResults`),
and warnings logged. -/
structure DispatchResult where
  assistant : List ContentBlock
  results : List ContentBlock
  warnings : List String
deriving DecidableEq, Repr

/-- Per-tool-call effect of the dispatch loop body in `runPrompt`
(root.go lines 143-245): the `tool_use` block is always appended first; a
malformed name, unknown server or unparseable arguments skip the call with a
warning; a call error appends a synthetic `tool_result` block to the
assistant content; a successful call with non-nil content appends a
`tool_result` block to the tool results; nil content appends nothing. -/
def dispatchCall (clients : Clients) (tc : ToolCall) : DispatchResult :=
  match classifyCall clients tc with
  | .malformed =>
    ⟨[toolUseBlock tc], [], ["Invalid tool name format: " ++ tc.name]⟩
  | .unknownServer server =>
    ⟨[toolUseBlock tc], [], ["Server not found: " ++ server]⟩
  | .badArgs =>
    ⟨[toolUseBlock tc], [], ["Error parsing tool arguments"]⟩
  | .errored toolName e =>
    ⟨[toolUseBlock tc, errorResultBlock tc.id toolName e], [],
     [callErrMsg toolName e]⟩
  | .okNil =>
    ⟨[toolUseBlock tc], [], []⟩
  | .okContent items =>
    ⟨[toolUseBlock tc], [resultBlock tc.id items], []⟩

/-- The free-text block prepended to the assistant content when the model's
content is non-empty (root.go lines 134-140). -/
def textPart (msg : Message) : List ContentBlock :=
  if msg.content ≠ "" then [{ type := "text", text := msg.content }] else []

/-- One round of the dispatch loop: fold over the model's tool calls in
order, accumulating `messageContent` and `toolResults` exactly as the Go
loop appends to them. -/
def runRound (clients : Clients) (msg : Message) :
    List ContentBlock × List ContentBlock :=
  msg.toolCalls.foldl
    (fun acc tc =>
      (acc.1 ++ (dispatchCall clients tc).assistant,
       acc.2 ++ (dispatchCall clients tc).results))
    (textPart msg, [])

/-- The user Turn appended for a non-empty prompt (root.go lines 95-107). -/
def userTextTurn (prompt : String) : HistoryMessage :=
  { role := "user", content := [{ type := "text", text := prompt }] }

/-- The session messages after the initial prompt handling of a round. -/
def promptBase (prompt : String) (messages : List HistoryMessage) :
    List HistoryMessage :=
  if prompt ≠ "" then messages ++ [userTextTurn prompt] else messages

/-- The single assistant Turn appended per round (root.go lines 247-250). -/
def roundAssistantTurn (clients : Clients) (msg : Message) : HistoryMessage :=
  { role := msg.role, content := (runRound clients msg).1 }

/-- The tool-results user Turn appended when at least one tool produced an
output block (root.go lines 252-256). -/
def roundResultsTurn (clients : Clients) (msg : Message) : HistoryMessage :=
  { role := "user", content := (runRound clients msg).2 }

/-- `runPrompt` (root.go lines 88-263). The provider is an oracle list of
per-round responses (`CreateMessage` results); an exhausted list plays the
role of a failing provider call, which keeps the recursion structural. On
success the result carries the session messages (returned to the HTTP
handler through the `messages` pointer) and the updated global
`modelMessages`, which is only assigned in the terminal round
(root.go line 261); every error path leaves it untouched. -/
def runPrompt (clients : Clients) (responses : List (Except String Message))
    (prompt : String) (messages global : List HistoryMessage) :
    Except String (List HistoryMessage) × List HistoryMessage :=
  match responses with
  | [] => (.error "model provider exhausted", global)
  | .error e :: _ => (.error e, global)
  | .ok msg :: rest =>
    let withAssistant := promptBase prompt messages ++ [roundAssistantTurn clients msg]
    if (runRound clients msg).2.isEmpty then
      (.ok withAssistant, global ++ withAssistant)
    else
      runPrompt clients rest "" (withAssistant ++ [roundResultsTurn clients msg]) global

/-- A tool call that reached invocation and succeeded with non-nil content —
exactly the calls that contribute a block to `toolResults`. -/
def callSucceeded (clients : Clients) (tc : ToolCall) : Bool :=
  match classifyCall clients tc with
  | .okContent _ => true
  | _ => false

/-- Outcome oracle for the two external mcp-go library calls made per
configured server in `createMCPClients`: `NewStdioMCPClient` (process
creation) and `client.Initialize` (handshake). -/
inductive SetupResult
  | createFails
  | initFails
  | ok
deriving DecidableEq, Repr

/-- Result of startup registration: the registered client names (or the
propagated error), the processes that were started, and the clients that
were closed, each in processing order. -/
structure MCPStartup where
  clients : Except String (List String)
  started : List String
  closed : List String
deriving Repr

/-- Loop body of `createMCPClients` (unnamed part 0, lines 207-262), with
the configured servers as an ordered list (Go map iteration order is
arbitrary; the order is irrelevant to the claims) and the accumulator
holding the names registered so far. On a creation failure all previous
clients are closed; on an initialize failure the new client is closed first
and then all previous ones; in both cases the error is propagated. -/
def createMCPClientsGo : List (String × SetupResult) → List String → MCPStartup
  | [], acc => ⟨.ok acc, acc, []⟩
  | (name, r) :: rest, acc =>
    match r with
    | .ok => createMCPClientsGo rest (acc ++ [name])
    | .createFails =>
      ⟨.error ("failed to create MCP client for " ++ name), acc, acc⟩
    | .initFails =>
      ⟨.error ("failed to initialize MCP client for " ++ name),
       acc ++ [name], name :: acc⟩

/-- `createMCPClients` (unnamed part 0, lines 207-262). -/
def createMCPClients (cfg : List (String × SetupResult)) : MCPStartup :=
  createMCPClientsGo cfg []

/-- An advertised MCP tool (Go `mcp.Tool`), schema collapsed to its parts
as used by `mcpToolsToAnthropicTools`. -/
structure McpTool where
  name : String
  description : String := ""
  schemaType : String := "object"
deriving DecidableEq, Repr

/-- A catalog entry exposed to the model (Go `llm.Tool`). -/
structure LlmTool where
  name : String
  description : String := ""
  schemaType : String := "object"
deriving DecidableEq, Repr

/-- The namespaced catalog name `fmt.Sprintf("%s__%s", serverName, tool.Name)`
(unnamed part 0, line 271). -/
def namespacedName (serverName toolName : String) : String :=
  serverName ++ "__" ++ toolName

/-- `mcpToolsToAnthropicTools` (unnamed part 0, lines 264-284). -/
def mcpToolsToAnthropicTools (serverName : String) (mcpTools : List McpTool) :
    List LlmTool :=
  mcpTools.map fun tool =>
    { name := namespacedName serverName tool.name,
      description := tool.description,
      schemaType := tool.schemaType }

/-- The trailing window served by `historyHandler` (unnamed part 0, lines
90-108): the last `messageWindow` messages when more are retained, else the
whole history. The window size is a Go `int`. -/
def recentWindow (w : Int) (msgs : List HistoryMessage) : List HistoryMessage :=
  if (msgs.length : Int) > w then
    msgs.drop ((msgs.length : Int) - w).toNat
  else
    msgs

/-- Digits of a decimal numeral, or `none` if the character list is empty or
contains a non-digit. -/
def parseDigits (cs : List Char) : Option Nat :=
  if cs ≠ [] ∧ cs.all Char.isDigit then
    some (cs.foldl (fun n c => n * 10 + (c.toNat - 48)) 0)
  else
    none

/-- Go `strconv.Atoi`: an optional sign followed by at least one digit;
anything else is a syntax error (Go then returns the zero value together
with the error). Overflow clamping is not modelled. -/
def goAtoi (s : String) : Except String Int :=
  match s.data with
  | [] => .error "invalid syntax"
  | c :: rest =>
    if c = '-' then
      match parseDigits rest with
      | some n => .ok (-(n : Int))
      | none => .error "invalid syntax"
    else if c = '+' then
      match parseDigits rest with
      | some n => .ok (n : Int)
      | none => .error "invalid syntax"
    else
      match parseDigits (c :: rest) with
      | some n => .ok (n : Int)
      | none => .error "invalid syntax"

/-- The initial value of the global `messageWindow` (root.go line 25). -/
def defaultMessageWindow : Int := 10

/-- The assignment `messageWindow, _ = strconv.Atoi(os.Getenv("MCP_MESSAGE_WINDOW"))`
in `LoadServerEnv` (unnamed part 0, line 39): the error is discarded, so an
absent (empty) or unparseable value leaves Go's zero value 0 in
`messageWindow`, overwriting the initial 10. -/
def loadMessageWindow (envVal : String) : Int :=
  match goAtoi envVal with
  | .ok n => n
  | .error _ => 0

theorem foldl_append_pair {α : Type} (f g : α → List ContentBlock) :
    ∀ (l : List α) (a b : List ContentBlock),
      l.foldl (fun acc x => (acc.1 ++ f x, acc.2 ++ g x)) (a, b) =
        (a ++ (l.map f).flatten, b ++ (l.map g).flatten) := by
  intro l
  induction l with
  | nil => intro a b; simp
  | cons x xs ih => intro a b; simp [ih, List.append_assoc]

theorem runRound_eq (clients : Clients) (msg : Message) :
    runRound clients msg =
      (textPart msg ++
         (msg.toolCalls.map fun tc => (dispatchCall clients tc).assistant).flatten,
       (msg.toolCalls.map fun tc => (dispatchCall clients tc).results).flatten) := by
  unfold runRound
  rw [foldl_append_pair]
  simp

theorem dispatch_results_length (clients : Clients) (tc : ToolCall) :
    (dispatchCall clients tc).results.length =
      if callSucceeded clients tc then 1 else 0 := by
  cases h : classifyCall clients tc <;> simp [dispatchCall, callSucceeded, h]

theorem results_join_length (clients : Clients) :
    ∀ l : List ToolCall,
      ((l.map fun tc => (dispatchCall clients tc).results).flatten).length =
        l.countP fun tc => callSucceeded clients tc := by
  intro l
  induction l with
  | nil => simp
  | cons tc xs ih =>
    simp [List.countP_cons, ih, dispatch_results_length]
    cases h : callSucceeded clients tc <;> simp [h]
    omega

theorem dispatch_assistant_toolUse_count (clients : Clients) (tc : ToolCall) :
    ((dispatchCall clients tc).assistant).countP (fun b => b.type == "tool_use") = 1 := by
  cases h : classifyCall clients tc <;>
    simp [dispatchCall, h, toolUseBlock, errorResultBlock, List.countP_cons]

theorem assistant_join_toolUse_count (clients : Clients) :
    ∀ l : List ToolCall,
      ((l.map fun tc => (dispatchCall clients tc).assistant).flatten).countP
          (fun b => b.type == "tool_use") = l.length := by
  intro l
  induction l with
  | nil => simp
  | cons tc xs ih =>
    simp [List.countP_append, ih, dispatch_assistant_toolUse_count]
    omega

theorem textPart_toolUse_count (msg : Message) :
    (textPart msg).countP (fun b => b.type == "tool_use") = 0 := by
  unfold textPart
  split <;> simp

theorem dispatch_results_type (clients : Clients) (tc : ToolCall) :
    ∀ b ∈ (dispatchCall clients tc).results, b.type = "tool_result" := by
  cases h : classifyCall clients tc <;> simp [dispatchCall, h, resultBlock]

theorem runPrompt_cons_ok (clients : Clients) (msg : Message)
    (rest : List (Except String Message)) (prompt : String)
    (messages global : List HistoryMessage) :
    runPrompt clients (.ok msg :: rest) prompt messages global =
      if (runRound clients msg).2.isEmpty then
        (.ok (promptBase prompt messages ++ [roundAssistantTurn clients msg]),
         global ++ (promptBase prompt messages ++ [roundAssistantTurn clients msg]))
      else
        runPrompt clients rest ""
          (promptBase prompt messages ++
            [roundAssistantTurn clients msg, roundResultsTurn clients msg])
          global := by
  rw [runPrompt]
  split <;> simp

theorem runRound_results_nil (clients : Clients) (msg : Message)
    (h : ∀ tc ∈ msg.toolCalls, callSucceeded clients tc = false) :
    (runRound clients msg).2 = [] := by
  have hlen : (runRound clients msg).2.length = 0 := by
    rw [runRound_eq]
    rw [results_join_length]
    simp only [List.countP_eq_zero]
    intro tc htc
    simp [h tc htc]
  exact List.eq_nil_of_length_eq_zero hlen

theorem createMCPClientsGo_error_of_fail :
    ∀ (cfg : List (String × SetupResult)) (acc : List String)
      (name : String) (r : SetupResult),
      (name, r) ∈ cfg → r ≠ .ok →
      ∃ e, (createMCPClientsGo cfg acc).clients = .error e := by
  intro cfg
  induction cfg with
  | nil => intro acc name r hmem _; simp at hmem
  | cons p rest ih =>
    intro acc name r hmem hr
    obtain ⟨pn, pr⟩ := p
    cases pr with
    | ok =>
      rcases List.mem_cons.mp hmem with h | h
      · exact absurd (congrArg Prod.snd h) hr
      · exact ih (acc ++ [pn]) name r h hr
    | createFails => exact ⟨_, rfl⟩
    | initFails => exact ⟨_, rfl⟩

theorem createMCPClientsGo_rollback :
    ∀ (cfg : List (String × SetupResult)) (acc : List String) (e : String),
      (createMCPClientsGo cfg acc).clients = .error e →
      (createMCPClientsGo cfg acc).closed.Perm (createMCPClientsGo cfg acc).started := by
  intro cfg
  induction cfg with
  | nil => intro acc e h; simp [createMCPClientsGo] at h
  | cons p rest ih =>
    intro acc e h
    obtain ⟨pn, pr⟩ := p
    cases pr with
    | ok => exact ih (acc ++ [pn]) e h
    | createFails => exact List.Perm.refl _
    | initFails => exact (List.perm_append_singleton pn acc).symm

theorem sepFree_append_inj :
    ∀ (a b t1 t2 : List Char), '_' ∉ a → '_' ∉ b →
      a ++ '_' :: '_' :: t1 = b ++ '_' :: '_' :: t2 → a = b := by
  intro a
  induction a with
  | nil =>
    intro b t1 t2 _ hb h
    cases b with
    | nil => rfl
    | cons d bs =>
      simp only [List.nil_append, List.cons_append] at h
      injection h with h1 _
      exact absurd (h1 ▸ List.mem_cons_self d bs) hb
  | cons c as ih =>
    intro b t1 t2 ha hb h
    cases b with
    | nil =>
      simp only [List.nil_append, List.cons_append] at h
      injection h with h1 _
      exact absurd (h1 ▸ List.mem_cons_self c as) ha
    | cons d bs =>
      simp only [List.cons_append] at h
      injection h with h1 h2
      subst h1
      have := ih bs t1 t2
        (fun hm => ha (List.mem_cons_of_mem _ hm))
        (fun hm => hb (List.mem_cons_of_mem _ hm)) h2
      rw [this]

theorem namespacedName_inj_server (a b t1 t2 : String)
    (ha : '_' ∉ a.data) (hb : '_' ∉ b.data)
    (h : namespacedName a t1 = namespacedName b t2) : a = b := by
  have hd : a.data ++ '_' :: '_' :: t1.data = b.data ++ '_' :: '_' :: t2.data := by
    have hc := congrArg String.data h
    simpa [namespacedName, String.data_append] using hc
  have hab := sepFree_append_inj a.data b.data t1.data t2.data ha hb hd
  cases a; cases b
  exact congrArg String.mk hab

/-- C7: for every history of length m and every configured window size
n >= 0, the history-window retrieval returns exactly min(n, m) turns, and
they are the most recently appended turns of the history in their original
append order (the returned window is a suffix of the history). -/
theorem recentWindow_spec (w : Int) (msgs : List HistoryMessage) (hw : 0 ≤ w) :
    (recentWindow w msgs).length = min w.toNat msgs.length ∧
    recentWindow w msgs <:+ msgs := by
  unfold recentWindow
  by_cases h : (msgs.length : Int) > w
  · rw [if_pos h]
    constructor
    · rw [List.length_drop]
      omega
    · exact List.drop_suffix _ _
  · rw [if_neg h]
    constructor
    · omega
    · exact List.suffix_refl _

theorem recentWindow_spec_witness :
    (0 : Int) ≤ 2 ∧
    ((recentWindow 2 [userTextTurn "a", userTextTurn "b", userTextTurn "c"]).length =
        min ((2 : Int)).toNat [userTextTurn "a", userTextTurn "b", userTextTurn "c"].length ∧
      recentWindow 2 [userTextTurn "a", userTextTurn "b", userTextTurn "c"] <:+
        [userTextTurn "a", userTextTurn "b", userTextTurn "c"]) :=
  ⟨by decide, recentWindow_spec 2 [userTextTurn "a", userTextTurn "b", userTextTurn "c"] (by decide)⟩

/-- C8: the claim says an absent or unparseable MCP_MESSAGE_WINDOW leaves the
effective window at the default 10 and the history endpoint still returns
turns for a non-empty history. The code evaluated at the failing input shows
otherwise: the declared default is 10, but `LoadServerEnv` discards the
`strconv.Atoi` error and overwrites the window with Go's zero value 0, after
which the history endpoint returns an empty window even for a non-empty
history. -/
theorem messageWindow_fallback_bug :
    defaultMessageWindow = 10 ∧
    loadMessageWindow "" = 0 ∧
    loadMessageWindow "ten" = 0 ∧
    loadMessageWindow "10" = 10 ∧
    recentWindow (loadMessageWindow "") [userTextTurn "hello"] = [] := by
  decide

/-- C5: a namespaced name that splits as [s, t] is routed to the connection
registered under s, invoking it with local tool name t and the call's
(unmarshalled) arguments — the outcome is exactly determined by that
connection's response; a name that does not split into exactly two segments
is rejected as malformed for every registry (no connection consulted); an
unknown server id is reported with a warning and not routed. -/
theorem invoke_routing (clients : Clients) (tc : ToolCall) :
    (∀ s t, splitToolName tc.name = [s, t] →
      classifyCall clients tc =
        match List.lookup s clients with
        | none => .unknownServer s
        | some beh =>
          match unmarshalMap tc.args with
          | none => .badArgs
          | some toolArgs =>
            match beh t toolArgs with
            | .error e => .errored t e
            | .ok none => .okNil
            | .ok (some items) => .okContent items) ∧
    ((splitToolName tc.name).length ≠ 2 →
      ∀ clients2 : Clients, classifyCall clients2 tc = .malformed) ∧
    (∀ s t, splitToolName tc.name = [s, t] → List.lookup s clients = none →
      dispatchCall clients tc = ⟨[toolUseBlock tc], [], ["Server not found: " ++ s]⟩) := by
  refine ⟨?_, ?_, ?_⟩
  · intro s t hsplit
    unfold classifyCall
    rw [hsplit]
  · intro hlen clients2
    unfold classifyCall
    rcases hsp : splitToolName tc.name with _ | ⟨x, _ | ⟨y, _ | ⟨z, l⟩⟩⟩
    · rfl
    · rfl
    · rw [hsp] at hlen; simp at hlen
    · rfl
  · intro s t hsplit hnone
    have hc : classifyCall clients tc = .unknownServer s := by
      unfold classifyCall
      rw [hsplit]
      simp [hnone]
    simp [dispatchCall, hc]

def w5beh : Behavior := fun _ _ => .error "boom"

def w5cl : Clients := [("alpha", w5beh)]

def w5call : ToolCall := ⟨"id5", "alpha__echo", .null⟩

theorem invoke_routing_witness :
    classifyCall w5cl w5call = .errored "echo" "boom" := by
  rw [(invoke_routing w5cl w5call).1 "alpha" "echo" (by decide)]
  rfl

/-- C2: if any configured tool server fails its startup handshake (client
creation or initialize), registration of the whole batch fails with zero
live connections: the set of closed clients is a permutation of the set of
started processes, and the error is propagated. -/
theorem createMCPClients_transactional (cfg : List (String × SetupResult))
    (name : String) (r : SetupResult)
    (hmem : (name, r) ∈ cfg) (hr : r ≠ .ok) :
    (∃ e, (createMCPClients cfg).clients = .error e) ∧
    (createMCPClients cfg).closed.Perm ((createMCPClients cfg).started) := by
  obtain ⟨e, he⟩ := createMCPClientsGo_error_of_fail cfg [] name r hmem hr
  exact ⟨⟨e, he⟩, createMCPClientsGo_rollback cfg [] e he⟩

theorem createMCPClients_transactional_witness :
    ((("b" : String), SetupResult.initFails) ∈
        [(("a" : String), SetupResult.ok), ("b", SetupResult.initFails)]) ∧
    ((∃ e, (createMCPClients [("a", .ok), ("b", .initFails)]).clients = .error e) ∧
      (createMCPClients [("a", .ok), ("b", .initFails)]).closed.Perm
        ((createMCPClients [("a", .ok), ("b", .initFails)]).started)) :=
  ⟨by decide,
   createMCPClients_transactional [("a", .ok), ("b", .initFails)] "b" .initFails
     (by decide) (by decide)⟩

def c1beh : Behavior := fun _ _ => .ok none

def c1cl : Clients := [("srv", c1beh)]

def c1call : ToolCall := ⟨"id1", "srv__list", .null⟩

def c1msg : Message := { role := "assistant", content := "", toolCalls := [c1call] }

/-- C1 counterexample: one tool call that resolves to a known server, a
well-formed name and a successful invocation (j = 1 > 0), whose result
content is nil: the loop appends no user Turn at all, against the claim's
"exactly one subsequent user Turn containing exactly j tool_result blocks
when j > 0". -/
theorem runPrompt_nilContent_counterexample :
    classifyCall c1cl c1call = .okNil ∧
    runPrompt c1cl [.ok c1msg] "hi" [] [] =
      (.ok [userTextTurn "hi",
            { role := "assistant", content := [toolUseBlock c1call] }],
       [userTextTurn "hi",
        { role := "assistant", content := [toolUseBlock c1call] }]) :=
  ⟨rfl, rfl⟩

/-- C1 (amended): in one round, the single appended assistant Turn holds the
free text block if present followed per tool call (all k of them, in order)
by its tool_use block and, for errored invocations, an error tool_result
block; the tool-results user Turn holds exactly j tool_result blocks where
j counts the calls that resolve to a known server, a well-formed name,
parseable arguments and a successful invocation with non-nil content; it is
appended (and the loop re-queries the model) exactly when j > 0; a turn
with zero tool calls ends the loop after one round with one assistant Turn
and no user Turn. -/
theorem runPrompt_round_structure (clients : Clients) (msg : Message)
    (rest : List (Except String Message)) (prompt : String)
    (messages global : List HistoryMessage) :
    (runRound clients msg).1 =
      textPart msg ++
        (msg.toolCalls.map fun tc => (dispatchCall clients tc).assistant).flatten ∧
    (runRound clients msg).2 =
      (msg.toolCalls.map fun tc => (dispatchCall clients tc).results).flatten ∧
    (runRound clients msg).2.length =
      msg.toolCalls.countP (fun tc => callSucceeded clients tc) ∧
    (runRound clients msg).1.countP (fun b => b.type == "tool_use") =
      msg.toolCalls.length ∧
    (∀ b ∈ (runRound clients msg).2, b.type = "tool_result") ∧
    runPrompt clients (.ok msg :: rest) prompt messages global =
      (if (runRound clients msg).2.isEmpty then
        (.ok (promptBase prompt messages ++ [roundAssistantTurn clients msg]),
         global ++ (promptBase prompt messages ++ [roundAssistantTurn clients msg]))
      else
        runPrompt clients rest ""
          (promptBase prompt messages ++
            [roundAssistantTurn clients msg, roundResultsTurn clients msg]) global) ∧
    (msg.toolCalls = [] →
      (runRound clients msg).2 = [] ∧
      runPrompt clients (.ok msg :: rest) prompt messages global =
        (.ok (promptBase prompt messages ++ [roundAssistantTurn clients msg]),
         global ++ (promptBase prompt messages ++ [roundAssistantTurn clients msg]))) := by
  have hr := runRound_eq clients msg
  refine ⟨by rw [hr], by rw [hr], ?_, ?_, ?_, runPrompt_cons_ok clients msg rest prompt messages global, ?_⟩
  · rw [hr]
    exact results_join_length clients msg.toolCalls
  · rw [hr]
    rw [List.countP_append, textPart_toolUse_count, assistant_join_toolUse_count]
    omega
  · rw [hr]
    intro b hb
    simp only [List.mem_flatten, List.mem_map] at hb
    obtain ⟨l, ⟨tc, _, rfl⟩, hbl⟩ := hb
    exact dispatch_results_type clients tc b hbl
  · intro h0
    have hnil : (runRound clients msg).2 = [] := by
      rw [hr]
      simp [h0]
    refine ⟨hnil, ?_⟩
    rw [runPrompt_cons_ok, if_pos (by simp [hnil])]

def w1cl : Clients := []

def w1msg : Message := { role := "assistant", content := "done", toolCalls := [] }

theorem runPrompt_round_structure_witness :
    (runRound w1cl w1msg).2 = [] ∧
    runPrompt w1cl [.ok w1msg] "p" [] [] =
      (.ok (promptBase "p" [] ++ [roundAssistantTurn w1cl w1msg]),
       [] ++ (promptBase "p" [] ++ [roundAssistantTurn w1cl w1msg])) :=
  (runPrompt_round_structure w1cl w1msg [] "p" [] []).2.2.2.2.2.2 rfl

def c3call : ToolCall := ⟨"id3", "srv_tool", .null⟩

/-- C3 counterexample: a malformed namespaced name ("srv_tool" has no
two-underscore separator) still gets a tool_use ContentBlock in the
assistant content, against the claim's "no ContentBlock of any kind". -/
theorem malformed_name_emits_toolUse_counterexample :
    (splitToolName c3call.name).length ≠ 2 ∧
    (dispatchCall [] c3call).assistant = [toolUseBlock c3call] ∧
    (toolUseBlock c3call).type = "tool_use" ∧
    (dispatchCall [] c3call).results = [] := by
  decide

/-- C3 (amended): a call whose namespaced name does not split into exactly
two segments is classified malformed and skipped with a warning — no
tool_result block is emitted for it and no connection is consulted — but
its tool_use block is still appended to the assistant content (root.go
appends it before validating the name). -/
theorem dispatch_malformed_skips (clients : Clients) (tc : ToolCall)
    (h : (splitToolName tc.name).length ≠ 2) :
    classifyCall clients tc = .malformed ∧
    dispatchCall clients tc =
      ⟨[toolUseBlock tc], [], ["Invalid tool name format: " ++ tc.name]⟩ := by
  have hm : classifyCall clients tc = .malformed := by
    unfold classifyCall
    rcases hsp : splitToolName tc.name with _ | ⟨x, _ | ⟨y, _ | ⟨z, l⟩⟩⟩
    · rfl
    · rfl
    · rw [hsp] at h; simp at h
    · rfl
  exact ⟨hm, by simp [dispatchCall, hm]⟩

def w3call : ToolCall := ⟨"idw3", "a__b__c", .null⟩

theorem dispatch_malformed_skips_witness :
    (splitToolName w3call.name).length ≠ 2 ∧
    (classifyCall [] w3call = .malformed ∧
      dispatchCall [] w3call =
        ⟨[toolUseBlock w3call], [], ["Invalid tool name format: " ++ w3call.name]⟩) :=
  ⟨by decide, dispatch_malformed_skips [] w3call (by decide)⟩

def c4beh : Behavior := fun _ _ => .error "boom"

def c4cl : Clients := [("srv", c4beh)]

def c4call : ToolCall := ⟨"id4", "srv__run", .null⟩

def c4msg : Message := { role := "assistant", content := "", toolCalls := [c4call] }

def c4msg2 : Message := { role := "assistant", content := "after", toolCalls := [] }

/-- C4 counterexample: a tool call whose invocation errors produces a
synthetic tool_result block, but the block lands in the assistant Turn's
content, not in a tool-results user Turn, and the loop ends after this
round without another model call (the second provider response is never
consumed), against the claim's "appended to the tool-results user Turn ...
the conversation continues with another model round". -/
theorem toolError_block_counterexample :
    (dispatchCall c4cl c4call).results = [] ∧
    (dispatchCall c4cl c4call).assistant =
      [toolUseBlock c4call, errorResultBlock "id4" "run" "boom"] ∧
    runPrompt c4cl [.ok c4msg, .ok c4msg2] "p" [] [] =
      (.ok [userTextTurn "p",
            { role := "assistant",
              content := [toolUseBlock c4call, errorResultBlock "id4" "run" "boom"] }],
       [userTextTurn "p",
        { role := "assistant",
          content := [toolUseBlock c4call, errorResultBlock "id4" "run" "boom"] }]) :=
  ⟨rfl, rfl, rfl⟩

/-- C4 (amended): a transport/execution error from a tool yields a synthetic
tool_result ContentBlock carrying the message "Error calling tool t: err";
the error is not fatal — the loop proceeds normally — but the block is
appended to the assistant Turn's content, not to the tool-results user
Turn, and it does not by itself trigger another model round: a message
whose only tool call errors ends the resolution in this round. -/
theorem dispatch_toolError_block (clients : Clients) (tc : ToolCall) (t e : String)
    (h : classifyCall clients tc = .errored t e) :
    dispatchCall clients tc =
      ⟨[toolUseBlock tc, errorResultBlock tc.id t e], [], [callErrMsg t e]⟩ ∧
    (∀ (msg : Message) (rest : List (Except String Message)) (prompt : String)
        (messages global : List HistoryMessage),
      msg.toolCalls = [tc] →
      runPrompt clients (.ok msg :: rest) prompt messages global =
        (.ok (promptBase prompt messages ++ [roundAssistantTurn clients msg]),
         global ++ (promptBase prompt messages ++ [roundAssistantTurn clients msg]))) := by
  constructor
  · simp [dispatchCall, h]
  · intro msg rest prompt messages global htc
    have hnil : (runRound clients msg).2 = [] := by
      apply runRound_results_nil
      intro tc2 htc2
      rw [htc, List.mem_singleton] at htc2
      subst htc2
      simp [callSucceeded, h]
    rw [runPrompt_cons_ok, if_pos (by simp [hnil])]

def w4beh : Behavior := fun _ _ => .error "nope"

def w4cl : Clients := [("filesys", w4beh)]

def w4call : ToolCall := ⟨"idw4", "filesys__ls", .obj [("path", "/tmp")]⟩

def w4msg : Message := { role := "assistant", content := "", toolCalls := [w4call] }

theorem dispatch_toolError_block_witness :
    dispatchCall w4cl w4call =
      ⟨[toolUseBlock w4call, errorResultBlock "idw4" "ls" "nope"], [],
       [callErrMsg "ls" "nope"]⟩ ∧
    runPrompt w4cl [.ok w4msg] "p" [] [] =
      (.ok (promptBase "p" [] ++ [roundAssistantTurn w4cl w4msg]),
       [] ++ (promptBase "p" [] ++ [roundAssistantTurn w4cl w4msg])) :=
  ⟨(dispatch_toolError_block w4cl w4call "ls" "nope" rfl).1,
   (dispatch_toolError_block w4cl w4call "ls" "nope" rfl).2 w4msg [] "p" [] [] rfl⟩

def c6toolA : McpTool := { name := "_z" }

def c6toolB : McpTool := { name := "z" }

/-- C6 counterexample: two registered servers with distinct ids "s" and
"s_" (neither containing the two-underscore separator) produce colliding
namespaced catalog names: both catalogs contain the entry named "s___z",
against the claim that distinct server ids make collisions impossible for
all advertised local tool names. -/
theorem namespacedName_collision_counterexample :
    ("s" : String) ≠ "s_" ∧
    (mcpToolsToAnthropicTools "s" [c6toolA]).map LlmTool.name =
      (mcpToolsToAnthropicTools "s_" [c6toolB]).map LlmTool.name ∧
    (mcpToolsToAnthropicTools "s" [c6toolA]).map LlmTool.name = ["s___z"] := by
  decide

/-- C6 (amended): provided server ids contain no underscore character, the
namespaced catalog names of two servers with distinct ids are globally
unique: no entry of one server's catalog shares its name with any entry of
the other's, for all advertised local tool names. -/
theorem namespacedName_unique (a b : String) (hab : a ≠ b)
    (ha : '_' ∉ a.data) (hb : '_' ∉ b.data)
    (ts1 ts2 : List McpTool) (x y : LlmTool)
    (hx : x ∈ mcpToolsToAnthropicTools a ts1)
    (hy : y ∈ mcpToolsToAnthropicTools b ts2) :
    x.name ≠ y.name := by
  obtain ⟨t1, _, rfl⟩ := List.mem_map.mp hx
  obtain ⟨t2, _, rfl⟩ := List.mem_map.mp hy
  intro heq
  exact hab (namespacedName_inj_server a b t1.name t2.name ha hb heq)

def w6tool : McpTool := { name := "list" }

def w6a : LlmTool := { name := namespacedName "alpha" "list" }

def w6b : LlmTool := { name := namespacedName "beta" "list" }

theorem namespacedName_unique_witness : w6a.name ≠ w6b.name :=
  namespacedName_unique "alpha" "beta" (by decide) (by decide) (by decide)
    [w6tool] [w6tool] w6a w6b (by decide) (by decide)

/-- C9: a successfully invoked tool call whose raw result content is nil
contributes no tool_result ContentBlock at all (neither to the assistant
content nor to the tool results); and when no call in the round succeeds
with non-nil content, no user Turn is appended and the loop ends in this
round without consuming further provider responses. -/
theorem nilContent_no_result (clients : Clients) :
    (∀ tc : ToolCall, classifyCall clients tc = .okNil →
      dispatchCall clients tc = ⟨[toolUseBlock tc], [], []⟩) ∧
    (∀ (msg : Message) (rest : List (Except String Message)) (prompt : String)
        (messages global : List HistoryMessage),
      (∀ tc ∈ msg.toolCalls, callSucceeded clients tc = false) →
      (runRound clients msg).2 = [] ∧
      runPrompt clients (.ok msg :: rest) prompt messages global =
        (.ok (promptBase prompt messages ++ [roundAssistantTurn clients msg]),
         global ++ (promptBase prompt messages ++ [roundAssistantTurn clients msg]))) := by
  constructor
  · intro tc h
    simp [dispatchCall, h]
  · intro msg rest prompt messages global hall
    have hnil := runRound_results_nil clients msg hall
    refine ⟨hnil, ?_⟩
    rw [runPrompt_cons_ok, if_pos (by simp [hnil])]

def w9beh : Behavior := fun _ _ => .ok none

def w9cl : Clients := [("srv", w9beh)]

def w9call : ToolCall := ⟨"id9", "srv__probe", .null⟩

def w9msg : Message := { role := "assistant", content := "", toolCalls := [w9call] }

theorem nilContent_no_result_witness :
    dispatchCall w9cl w9call = ⟨[toolUseBlock w9call], [], []⟩ ∧
    ((runRound w9cl w9msg).2 = [] ∧
      runPrompt w9cl [.ok w9msg] "q" [] [] =
        (.ok (promptBase "q" [] ++ [roundAssistantTurn w9cl w9msg]),
         [] ++ (promptBase "q" [] ++ [roundAssistantTurn w9cl w9msg]))) :=
  ⟨(nilContent_no_result w9cl).1 w9call rfl,
   (nilContent_no_result w9cl).2 w9msg [] "q" [] []
     (by
       intro tc htc
       simp only [w9msg, List.mem_singleton] at htc
       subst htc
       rfl)⟩

/-- C10: every failing model-backend call — in the first round or any later
round entered after tool results — leaves the long-lived global message
history unchanged and propagates the error; the session's turns are merged
into the global history only by the final successful round, as a single
append of the whole session. -/
theorem runPrompt_global_merge (clients : Clients)
    (responses : List (Except String Message)) :
    ∀ (prompt : String) (messages global : List HistoryMessage),
      (∀ e, (runPrompt clients responses prompt messages global).1 = .error e →
        (runPrompt clients responses prompt messages global).2 = global) ∧
      (∀ ms, (runPrompt clients responses prompt messages global).1 = .ok ms →
        (runPrompt clients responses prompt messages global).2 = global ++ ms) := by
  induction responses with
  | nil =>
    intro prompt messages global
    constructor
    · intro e _
      rfl
    · intro ms h
      simp [runPrompt] at h
  | cons r rest ih =>
    intro prompt messages global
    cases r with
    | error e =>
      constructor
      · intro e2 _
        rfl
      · intro ms h
        simp [runPrompt] at h
    | ok msg =>
      have hstep := runPrompt_cons_ok clients msg rest prompt messages global
      by_cases hemp : (runRound clients msg).2.isEmpty
      · rw [if_pos hemp] at hstep
        constructor
        · intro e h
          rw [hstep] at h
          simp at h
        · intro ms h
          rw [hstep] at h ⊢
          simp only [Except.ok.injEq] at h
          simp [h]
      · rw [if_neg hemp] at hstep
        rw [hstep]
        exact ih ""
          (promptBase prompt messages ++
            [roundAssistantTurn clients msg, roundResultsTurn clients msg]) global

def w10msg : Message := { role := "assistant", content := "done", toolCalls := [] }

theorem runPrompt_global_merge_witness :
    (runPrompt [] [.error "boom"] "p" [] [userTextTurn "old"]).2 = [userTextTurn "old"] ∧
    (runPrompt [] [.ok w10msg] "p" [] [userTextTurn "old"]).2 =
      [userTextTurn "old"] ++ [userTextTurn "p", roundAssistantTurn [] w10msg] :=
  ⟨((runPrompt_global_merge [] [.error "boom"]) "p" [] [userTextTurn "old"]).1 "boom" rfl,
   ((runPrompt_global_merge [] [.ok w10msg]) "p" [] [userTextTurn "old"]).2
     [userTextTurn "p", roundAssistantTurn [] w10msg] rfl⟩
